import Mathlib

/-!
Verification of the unified-diff rendering model of `DiffViewer`
(frontend/components/AdminReviewPanel.tsx, lines 383-468).

The source parses a patch string split on newlines, maintaining two mutable
counters `oldLine`/`newLine` (both initialised to 0), and emits one rendered
row per input line.  A line starting with `@@` is a hunk header: the regex
`@@\s-([0-9]+)(?:,[0-9]+)?\s\+([0-9]+)(?:,[0-9]+)?\s@@` is searched in it and,
on success, resets the counters to the captured numbers; on failure the
counters are untouched; either way the raw line is emitted as a header row.
Otherwise a line starting with `+` is an addition (carries `newLine`, then
`newLine += 1`), a line starting with `-` is a deletion (carries `oldLine`,
then `oldLine += 1`), anything else is context (carries both, increments
both).  The click handler computes
`ln = displayNew != null ? displayNew : (displayOld != null ? displayOld : 0)`
and invokes `onPickLine(ln)` only when `ln` is truthy (non-zero).
-/

namespace Onboard

/-- The character class matched by the JavaScript regex escape `\s`
(ECMAScript WhiteSpace plus LineTerminator characters). -/
def jsWhitespace (c : Char) : Bool :=
  ([' ', '\t', '\n', '\r', '\x0B', '\x0C', '\u00A0', '\u1680',
    '\u2028', '\u2029', '\u202F', '\u205F', '\u3000', '\uFEFF'] : List Char).contains c
  || decide (0x2000 ≤ c.toNat ∧ c.toNat ≤ 0x200A)

/-- Greedily consume a (possibly empty) run of decimal digits, returning the
digits and the rest; models `[0-9]+` (the caller checks non-emptiness). -/
def takeDigits : List Char → List Char × List Char
  | [] => ([], [])
  | c :: rest =>
    if c.isDigit then
      let (ds, rest2) := takeDigits rest
      (c :: ds, rest2)
    else ([], c :: rest)

/-- Value of a digit string, as `parseInt(_, 10)` produces on an all-digit
capture (modelled on `Nat`, ignoring IEEE-754 imprecision on huge inputs). -/
def digitsToNat (ds : List Char) : Nat :=
  ds.foldl (fun acc c => acc * 10 + (c.toNat - '0'.toNat)) 0

/-- Match the regex fragment `(?:,[0-9]+)?\s` at the front of the input,
with the backtracking the JS engine performs: if a full `,digits` group is
followed by a whitespace both are consumed; otherwise the optional group is
dropped and a single whitespace is required (a leading `,` is not whitespace,
so a `,digits` group not followed by whitespace fails the whole fragment). -/
def matchCountAndSpace : List Char → Option (List Char)
  | ',' :: rest =>
    let (ds, rest2) := takeDigits rest
    if ds.isEmpty then none
    else
      match rest2 with
      | c :: rest3 => if jsWhitespace c then some rest3 else none
      | [] => none
  | c :: rest => if jsWhitespace c then some rest else none
  | [] => none

/-- Match `@@\s-([0-9]+)(?:,[0-9]+)?\s\+([0-9]+)(?:,[0-9]+)?\s@@` at the
front of the input, returning the two captured numbers. -/
def matchHeaderAt (cs : List Char) : Option (Nat × Nat) :=
  match cs with
  | '@' :: '@' :: c :: rest =>
    if jsWhitespace c then
      match rest with
      | '-' :: rest2 =>
        let (ds1, rest3) := takeDigits rest2
        if ds1.isEmpty then none
        else
          match matchCountAndSpace rest3 with
          | none => none
          | some rest4 =>
            match rest4 with
            | '+' :: rest5 =>
              let (ds2, rest6) := takeDigits rest5
              if ds2.isEmpty then none
              else
                match matchCountAndSpace rest6 with
                | none => none
                | some rest7 =>
                  match rest7 with
                  | '@' :: '@' :: _ => some (digitsToNat ds1, digitsToNat ds2)
                  | _ => none
            | _ => none
      | _ => none
    else none
  | _ => none

/-- Unanchored regex search, leftmost position first, as `raw.match(...)`
performs. -/
def searchHeader : List Char → Option (Nat × Nat)
  | [] => none
  | c :: rest =>
    match matchHeaderAt (c :: rest) with
    | some r => some r
    | none => searchHeader rest

/-- `raw.startsWith("@@")`. -/
def startsWithAtAt (s : String) : Bool :=
  match s.data with
  | '@' :: '@' :: _ => true
  | _ => false

/-- `raw.startsWith(c)` for a single-character needle. -/
def startsWithChar (s : String) (c : Char) : Bool :=
  match s.data with
  | [] => false
  | c2 :: _ => c2 == c

/-- `raw.slice(1)`. -/
def drop1 (s : String) : String :=
  ⟨s.data.drop 1⟩

/-- `patch.split("\n")` on a character list: JavaScript single-separator
split semantics (the empty string yields one empty line; a trailing
separator yields a final empty line). -/
def splitNl : List Char → List (List Char)
  | [] => [[]]
  | c :: rest =>
    if c = '\n' then [] :: splitNl rest
    else
      match splitNl rest with
      | [] => [[c]]
      | l :: ls => (c :: l) :: ls

/-- `patch.split("\n")`. -/
def splitLines (s : String) : List String :=
  (splitNl s.data).map (fun l => ⟨l⟩)

/-- Kind of a rendered row, as the source distinguishes hunk-header rows
from `"add" | "del" | "ctx"` content rows. -/
inductive LineKind where
  | add
  | del
  | ctx
  | header
deriving Repr, DecidableEq

/-- One rendered row: its input index (the React key `h-${i}` / `l-${i}`),
its kind, `displayOld`, `displayNew` (`null` modelled as `none`), and the
display text (`raw` for header and context rows, `raw.slice(1)` for
additions and deletions). -/
structure RenderedLine where
  idx : Nat
  kind : LineKind
  oldN : Option Nat
  newN : Option Nat
  text : String
deriving Repr, DecidableEq

/-- Counter update performed by one loop iteration on the pair
`(oldLine, newLine)`. -/
def nextState (st : Nat × Nat) (raw : String) : Nat × Nat :=
  if startsWithAtAt raw then
    match searchHeader raw.data with
    | some st2 => st2
    | none => st
  else if startsWithChar raw '+' then (st.1, st.2 + 1)
  else if startsWithChar raw '-' then (st.1 + 1, st.2)
  else (st.1 + 1, st.2 + 1)

/-- Row pushed by one loop iteration, from the counters current at that
iteration (header rows carry no numbers; additions carry `newLine` only;
deletions carry `oldLine` only; context rows carry both). -/
def mkRow (st : Nat × Nat) (i : Nat) (raw : String) : RenderedLine :=
  if startsWithAtAt raw then
    { idx := i, kind := .header, oldN := none, newN := none, text := raw }
  else if startsWithChar raw '+' then
    { idx := i, kind := .add, oldN := none, newN := some st.2, text := drop1 raw }
  else if startsWithChar raw '-' then
    { idx := i, kind := .del, oldN := some st.1, newN := none, text := drop1 raw }
  else
    { idx := i, kind := .ctx, oldN := some st.1, newN := some st.2, text := raw }

/-- The parsing loop over the remaining lines, threading the row index and
the counter pair exactly as the source's `for` loop does. -/
def parseFrom : Nat → Nat × Nat → List String → List RenderedLine
  | _, _, [] => []
  | i, st, raw :: rest => mkRow st i raw :: parseFrom (i + 1) (nextState st raw) rest

/-- `parse`: split the patch on newlines and run the loop with both
counters initialised to 0. -/
def parse (patch : String) : List RenderedLine :=
  parseFrom 0 (0, 0) (splitLines patch)

/-- Comment-target resolution: prefer `displayNew`, fall back to
`displayOld`, otherwise no target. -/
def resolveCommentTarget (row : RenderedLine) : Option Nat :=
  match row.newN with
  | some n => some n
  | none =>
    match row.oldN with
    | some o => some o
    | none => none

/-- The click handler: `ln = displayNew != null ? displayNew :
(displayOld != null ? displayOld : 0); if (ln) onPickLine(ln)` — the
emitted `onPickLine` argument, or `none` when the click is ignored
(`ln` falsy). -/
def pickLine (row : RenderedLine) : Option Nat :=
  let ln :=
    match row.newN with
    | some n => n
    | none =>
      match row.oldN with
      | some o => o
      | none => 0
  if ln ≠ 0 then some ln else none

/-- Two invocations of `parse` on the same string, as performed by two
successive renders. -/
def parseTwice (patch : String) : List RenderedLine × List RenderedLine :=
  (parse patch, parse patch)

/-- Counter state after the loop has consumed a run of lines. -/
def runState (st : Nat × Nat) (raws : List String) : Nat × Nat :=
  raws.foldl nextState st

/-! ### Helper lemmas -/

theorem mkRow_shape (st : Nat × Nat) (i : Nat) (raw : String) :
    mkRow st i raw = { idx := i, kind := .header, oldN := none, newN := none, text := raw } ∨
    mkRow st i raw = { idx := i, kind := .add, oldN := none, newN := some st.2, text := drop1 raw } ∨
    mkRow st i raw = { idx := i, kind := .del, oldN := some st.1, newN := none, text := drop1 raw } ∨
    mkRow st i raw = { idx := i, kind := .ctx, oldN := some st.1, newN := some st.2, text := raw } := by
  unfold mkRow
  split
  · exact Or.inl rfl
  · split
    · exact Or.inr (Or.inl rfl)
    · split
      · exact Or.inr (Or.inr (Or.inl rfl))
      · exact Or.inr (Or.inr (Or.inr rfl))

theorem mkRow_idx (st : Nat × Nat) (i : Nat) (raw : String) :
    (mkRow st i raw).idx = i := by
  rcases mkRow_shape st i raw with h | h | h | h <;> rw [h]

theorem parseFrom_length (raws : List String) :
    ∀ (i : Nat) (st : Nat × Nat), (parseFrom i st raws).length = raws.length := by
  induction raws with
  | nil => intro i st; rfl
  | cons raw rest ih => intro i st; simp [parseFrom, ih]

theorem parseFrom_map_idx (raws : List String) :
    ∀ (i : Nat) (st : Nat × Nat),
      (parseFrom i st raws).map RenderedLine.idx = List.range' i raws.length := by
  induction raws with
  | nil => intro i st; rfl
  | cons raw rest ih =>
    intro i st
    rw [List.length_cons, List.range'_succ i rest.length 1]
    simp [parseFrom, mkRow_idx, ih]

theorem mem_parseFrom {row : RenderedLine} :
    ∀ (raws : List String) (i : Nat) (st : Nat × Nat),
      row ∈ parseFrom i st raws → ∃ st2 j raw, row = mkRow st2 j raw := by
  intro raws
  induction raws with
  | nil => intro i st h; simp [parseFrom] at h
  | cons raw rest ih =>
    intro i st h
    rcases List.mem_cons.mp h with h1 | h1
    · exact ⟨st, i, raw, h1⟩
    · exact ih _ _ h1

theorem parseFrom_head {row : RenderedLine} :
    ∀ (raws : List String) (i : Nat) (st : Nat × Nat),
      (parseFrom i st raws).head? = some row →
      ∃ raw rest, raws = raw :: rest ∧ row = mkRow st i raw := by
  intro raws i st h
  cases raws with
  | nil => simp [parseFrom] at h
  | cons raw rest =>
    refine ⟨raw, rest, rfl, ?_⟩
    simpa [parseFrom] using h.symm

theorem nextState_content (st : Nat × Nat) (raw : String)
    (h : startsWithAtAt raw = false) :
    nextState st raw =
      if startsWithChar raw '+' then (st.1, st.2 + 1)
      else if startsWithChar raw '-' then (st.1 + 1, st.2)
      else (st.1 + 1, st.2 + 1) := by
  simp [nextState, h]

theorem nextState_content_le (st : Nat × Nat) (raw : String)
    (h : startsWithAtAt raw = false) :
    st.1 ≤ (nextState st raw).1 ∧ st.2 ≤ (nextState st raw).2 := by
  rw [nextState_content st raw h]
  cases hp : startsWithChar raw '+'
  · cases hm : startsWithChar raw '-' <;>
      simp [hp, hm, Nat.le_succ]
  · simp [hp, Nat.le_succ]

theorem runState_mono (raws : List String) :
    ∀ st : Nat × Nat, (∀ l ∈ raws, startsWithAtAt l = false) →
      st.1 ≤ (runState st raws).1 ∧ st.2 ≤ (runState st raws).2 := by
  induction raws with
  | nil => intro st _; exact ⟨Nat.le_refl _, Nat.le_refl _⟩
  | cons raw rest ih =>
    intro st hall
    have hraw := hall raw (List.mem_cons_self _ _)
    have hrest : ∀ l ∈ rest, startsWithAtAt l = false :=
      fun l hl => hall l (List.mem_cons_of_mem _ hl)
    have hstep := nextState_content_le st raw hraw
    have htail := ih (nextState st raw) hrest
    have hfold : runState st (raw :: rest) = runState (nextState st raw) rest := rfl
    rw [hfold]
    exact ⟨Nat.le_trans hstep.1 htail.1, Nat.le_trans hstep.2 htail.2⟩

theorem parseFrom_append (raws : List String) :
    ∀ (rest : List String) (i : Nat) (st : Nat × Nat),
      parseFrom i st (raws ++ rest) =
        parseFrom i st raws ++ parseFrom (i + raws.length) (runState st raws) rest := by
  induction raws with
  | nil => intro rest i st; simp [parseFrom, runState]
  | cons raw raws2 ih =>
    intro rest i st
    show mkRow st i raw :: parseFrom (i + 1) (nextState st raw) (raws2 ++ rest) =
      mkRow st i raw :: (parseFrom (i + 1) (nextState st raw) raws2 ++
        parseFrom (i + (raw :: raws2).length) (runState st (raw :: raws2)) rest)
    rw [ih rest (i + 1) (nextState st raw)]
    have h1 : i + 1 + raws2.length = i + (raw :: raws2).length := by
      rw [List.length_cons]; omega
    rw [h1]
    rfl

/-! ### Claims -/

/-- C1: for every patch string, `parse` emits exactly one rendered row per
input line (splitting the patch on newlines), in input order, so the number
of rendered rows equals the number of lines in the patch and each row's
identity is keyed by its input index. -/
theorem parse_row_count_and_index (patch : String) :
    (parse patch).length = (splitLines patch).length ∧
    (parse patch).map RenderedLine.idx = List.range ((splitLines patch).length) := by
  constructor
  · exact parseFrom_length (splitLines patch) 0 (0, 0)
  · rw [List.range_eq_range']
    exact parseFrom_map_idx (splitLines patch) 0 (0, 0)

/-- C3: in every parse output, addition rows carry a new-file number and no
old-file number; deletion rows carry an old-file number and no new-file
number; context rows carry both; hunk-header rows carry neither; hence
every non-header row has at least one of the two numbers populated. -/
theorem kind_number_presence (patch : String) (row : RenderedLine)
    (hmem : row ∈ parse patch) :
    (row.kind = .add → row.oldN = none ∧ row.newN ≠ none) ∧
    (row.kind = .del → row.oldN ≠ none ∧ row.newN = none) ∧
    (row.kind = .ctx → row.oldN ≠ none ∧ row.newN ≠ none) ∧
    (row.kind = .header → row.oldN = none ∧ row.newN = none) ∧
    (row.kind ≠ .header → row.oldN ≠ none ∨ row.newN ≠ none) := by
  obtain ⟨st2, j, raw, rfl⟩ := mem_parseFrom (splitLines patch) 0 (0, 0) hmem
  rcases mkRow_shape st2 j raw with h | h | h | h <;> rw [h] <;> simp

/-- C3 witness: the single row parsed from the patch `"+hello"` is an
addition carrying a new-file number and no old-file number. -/
theorem kind_number_presence_witness :
    ({ idx := 0, kind := .add, oldN := none, newN := some 0, text := "hello" } :
        RenderedLine).oldN = none ∧
    ({ idx := 0, kind := .add, oldN := none, newN := some 0, text := "hello" } :
        RenderedLine).newN ≠ none :=
  (kind_number_presence "+hello"
    { idx := 0, kind := .add, oldN := none, newN := some 0, text := "hello" }
    (by decide)).1 rfl

/-- C4: each consumed non-header line advances the counters exactly once
according to its kind (an addition increments only the new counter by 1, a
deletion only the old counter by 1, a context line both by 1), and across
any run of lines free of hunk headers — the rows between hunk headers,
whose counter state `parse` threads via `runState` as `parseFrom_append`
shows — both counters are monotonically non-decreasing. -/
theorem counters_per_kind_and_monotone (o n : Nat) (raw : String)
    (raws : List String) :
    (startsWithAtAt raw = false →
      (startsWithChar raw '+' = true → nextState (o, n) raw = (o, n + 1)) ∧
      (startsWithChar raw '+' = false → startsWithChar raw '-' = true →
        nextState (o, n) raw = (o + 1, n)) ∧
      (startsWithChar raw '+' = false → startsWithChar raw '-' = false →
        nextState (o, n) raw = (o + 1, n + 1))) ∧
    ((∀ l ∈ raws, startsWithAtAt l = false) →
      o ≤ (runState (o, n) raws).1 ∧ n ≤ (runState (o, n) raws).2) := by
  constructor
  · intro hh
    refine ⟨fun hp => ?_, fun hp hm => ?_, fun hp hm => ?_⟩ <;>
      rw [nextState_content (o, n) raw hh] <;> simp [hp]
    · simp [hm]
    · simp [hm]
  · exact runState_mono raws (o, n)

/-- C4 witness: concrete per-kind counter steps and monotonicity over a
header-free run. -/
theorem counters_per_kind_and_monotone_witness :
    nextState (3, 5) "+a" = (3, 6) ∧
    3 ≤ (runState (3, 5) [" a", "+b", "-c"]).1 ∧
    5 ≤ (runState (3, 5) [" a", "+b", "-c"]).2 :=
  ⟨((counters_per_kind_and_monotone 3 5 "+a" []).1 (by decide)).1 (by decide),
   (counters_per_kind_and_monotone 3 5 "+a" [" a", "+b", "-c"]).2 (by decide)⟩

/-- C5: a hunk-header line matched by the numeric pattern sets the old and
new counters exactly to the declared start values, with no further counter
mutation on the header row itself; non-header lines only perform the three
per-kind increments (so counter resets happen only at hunk-header rows);
and concretely `@@ -10,5 +20,5 @@` followed by a context line makes that
context row carry old=10 and new=20. -/
theorem header_resets_counters (st : Nat × Nat) (i o n : Nat) (raw : String) :
    (startsWithAtAt raw = true → searchHeader raw.data = some (o, n) →
      nextState st raw = (o, n) ∧
      mkRow st i raw =
        { idx := i, kind := .header, oldN := none, newN := none, text := raw }) ∧
    (startsWithAtAt raw = false →
      nextState st raw = (st.1, st.2 + 1) ∨ nextState st raw = (st.1 + 1, st.2) ∨
      nextState st raw = (st.1 + 1, st.2 + 1)) ∧
    parse "@@ -10,5 +20,5 @@\n x" =
      [{ idx := 0, kind := .header, oldN := none, newN := none,
         text := "@@ -10,5 +20,5 @@" },
       { idx := 1, kind := .ctx, oldN := some 10, newN := some 20, text := " x" }] := by
  refine ⟨fun hh hs => ⟨?_, ?_⟩, fun hh => ?_, by decide⟩
  · simp [nextState, hh, hs]
  · simp [mkRow, hh]
  · rw [nextState_content st raw hh]
    cases hp : startsWithChar raw '+'
    · cases hm : startsWithChar raw '-' <;> simp
    · simp

/-- C5 witness: a concrete well-formed header resets the counters from
(3, 7) to the declared (10, 20) and is emitted as a bare header row. -/
theorem header_resets_counters_witness :
    nextState (3, 7) "@@ -10,5 +20,5 @@" = (10, 20) ∧
    mkRow (3, 7) 0 "@@ -10,5 +20,5 @@" =
      { idx := 0, kind := .header, oldN := none, newN := none,
        text := "@@ -10,5 +20,5 @@" } :=
  (header_resets_counters (3, 7) 0 10 20 "@@ -10,5 +20,5 @@").1
    (by decide) (by decide)

/-- C6: a line beginning with `@@` that does not match the numeric
hunk-header pattern leaves both counters at their prior values and is still
emitted unmodified as a hunk-header row (the parser is total, so it never
fails), so subsequent content lines are numbered from the unchanged
counters. -/
theorem malformed_header_keeps_counters (st : Nat × Nat) (i : Nat) (raw : String)
    (hh : startsWithAtAt raw = true) (hs : searchHeader raw.data = none) :
    nextState st raw = st ∧
    mkRow st i raw =
      { idx := i, kind := .header, oldN := none, newN := none, text := raw } := by
  constructor
  · simp [nextState, hh, hs]
  · simp [mkRow, hh]

/-- C6 witness: the malformed header `"@@ malformed"` leaves the counters
at (4, 9) and is emitted unmodified as a header row. -/
theorem malformed_header_keeps_counters_witness :
    nextState (4, 9) "@@ malformed" = (4, 9) ∧
    mkRow (4, 9) 2 "@@ malformed" =
      { idx := 2, kind := .header, oldN := none, newN := none,
        text := "@@ malformed" } :=
  malformed_header_keeps_counters (4, 9) 2 "@@ malformed" (by decide) (by decide)

/-- C7: for every rendered line of a parse, `resolveCommentTarget` returns
the new-file number when present, else the old-file number when present,
else no value; the no-value case is reached exactly for hunk-header rows,
and there the click handler emits nothing (the interaction is silently
ignored rather than raising). -/
theorem resolve_preference (patch : String) (row : RenderedLine)
    (hmem : row ∈ parse patch) :
    (∀ n, row.newN = some n → resolveCommentTarget row = some n) ∧
    (row.newN = none → ∀ o, row.oldN = some o → resolveCommentTarget row = some o) ∧
    (row.newN = none → row.oldN = none → resolveCommentTarget row = none) ∧
    (resolveCommentTarget row = none ↔ row.kind = .header) ∧
    (resolveCommentTarget row = none → pickLine row = none) := by
  obtain ⟨st2, j, raw, rfl⟩ := mem_parseFrom (splitLines patch) 0 (0, 0) hmem
  rcases mkRow_shape st2 j raw with h | h | h | h <;> rw [h] <;>
    simp [resolveCommentTarget, pickLine]

/-- C7 witness: the sole row of the patch `"@@ bad"` is a header row; its
resolution is none and the click is silently ignored. -/
theorem resolve_preference_witness :
    resolveCommentTarget
      { idx := 0, kind := .header, oldN := none, newN := none, text := "@@ bad" } =
        none ∧
    pickLine
      { idx := 0, kind := .header, oldN := none, newN := none, text := "@@ bad" } =
        none := by
  have h := resolve_preference "@@ bad"
    { idx := 0, kind := .header, oldN := none, newN := none, text := "@@ bad" }
    (by decide)
  exact ⟨h.2.2.1 rfl rfl, h.2.2.2.2 (h.2.2.1 rfl rfl)⟩

/-- C2 counterexample: on the six-line patch of the end-to-end scenario the
deletion row (index 2) carries old-file number 2, not 1 as claimed — after
the context line " line one" both counters already advanced from 1 to 2. -/
theorem scenario_deletion_old_is_two :
    ((parse "@@ -1,3 +1,4 @@\n line one\n-line two\n+line two modified\n+line three new\n line four").get?
        2).map RenderedLine.oldN ≠ some (some 1) ∧
    ((parse "@@ -1,3 +1,4 @@\n line one\n-line two\n+line two modified\n+line three new\n line four").get?
        2).map RenderedLine.oldN = some (some 2) := by
  decide

/-- C2 amended: parsing the six-line patch yields, in order: a header row
(counters set to old=1, new=1); context with old=1, new=1 and text
" line one"; deletion with old=2 and text "line two"; addition with new=2
and text "line two modified"; addition with new=3 and text
"line three new"; context with old=3, new=4 and text " line four" (context
rows keep the raw line, leading space included); and resolving the addition
row carrying new=2 yields comment target 2. -/
theorem scenario_rows :
    parse "@@ -1,3 +1,4 @@\n line one\n-line two\n+line two modified\n+line three new\n line four" =
      [{ idx := 0, kind := .header, oldN := none, newN := none,
         text := "@@ -1,3 +1,4 @@" },
       { idx := 1, kind := .ctx, oldN := some 1, newN := some 1, text := " line one" },
       { idx := 2, kind := .del, oldN := some 2, newN := none, text := "line two" },
       { idx := 3, kind := .add, oldN := none, newN := some 2,
         text := "line two modified" },
       { idx := 4, kind := .add, oldN := none, newN := some 3,
         text := "line three new" },
       { idx := 5, kind := .ctx, oldN := some 3, newN := some 4,
         text := " line four" }] ∧
    nextState (0, 0) "@@ -1,3 +1,4 @@" = (1, 1) ∧
    resolveCommentTarget
      { idx := 3, kind := .add, oldN := none, newN := some 2,
        text := "line two modified" } = some 2 := by
  decide

/-- C8 counterexample: a context line does not lose its leading marker
character — parsing the one-line patch `" line one"` yields display text
" line one", with the leading space retained, not "line one". -/
theorem context_text_not_stripped :
    parse " line one" =
      [{ idx := 0, kind := .ctx, oldN := some 0, newN := some 0,
         text := " line one" }] ∧
    (" line one" : String) ≠ "line one" := by
  decide

/-- C8 amended: addition and deletion rows lose their leading `+`/`-`
marker (display text is the raw line less its first character); context
rows keep the raw line unchanged, leading space included. -/
theorem marker_stripping (st : Nat × Nat) (i : Nat) (raw : String)
    (hh : startsWithAtAt raw = false) :
    ((startsWithChar raw '+' = true ∨ startsWithChar raw '-' = true) →
      (mkRow st i raw).text = drop1 raw) ∧
    (startsWithChar raw '+' = false → startsWithChar raw '-' = false →
      (mkRow st i raw).text = raw) := by
  constructor
  · rintro (hp | hm)
    · simp [mkRow, hh, hp]
    · cases hp : startsWithChar raw '+' <;> simp [mkRow, hh, hp, hm]
  · intro hp hm
    simp [mkRow, hh, hp, hm]

/-- C8 amended witness: the addition `"+ab"` renders as "ab" and the
context line `" cd"` renders unchanged as " cd". -/
theorem marker_stripping_witness :
    (mkRow (0, 0) 0 "+ab").text = drop1 "+ab" ∧
    (mkRow (0, 0) 0 " cd").text = " cd" :=
  ⟨(marker_stripping (0, 0) 0 "+ab" (by decide)).1 (Or.inl (by decide)),
   (marker_stripping (0, 0) 0 " cd" (by decide)).2 (by decide) (by decide)⟩

/-- C9: `parse` is deterministic and stateless — two invocations on the
same patch string yield identical output sequences, with no hidden state
carried between calls (both counters are re-initialised to 0 inside each
call). -/
theorem parse_deterministic (patch : String) :
    (parseTwice patch).1 = (parseTwice patch).2 :=
  rfl

/-- C10: because both counters start at 0 and the pick callback declines a
resolved line number of 0 (a falsy check, not an absence check), a content
row numbered 0 — an addition with new=0, a deletion with old=0, or a
context row with old=0, new=0, as arise before the first well-formed hunk
header, in particular on the first line of a headerless patch — carries a
line number yet cannot anchor a comment: the click is silently ignored. -/
theorem zero_numbered_rows_ignored (patch : String) (row : RenderedLine)
    (hmem : row ∈ parse patch) :
    (row.kind ≠ .header →
      (row.newN = some 0 ∨ (row.newN = none ∧ row.oldN = some 0)) →
      resolveCommentTarget row = some 0 ∧ pickLine row = none) ∧
    ((parse patch).head? = some row → row.kind ≠ .header →
      resolveCommentTarget row = some 0 ∧ pickLine row = none) := by
  constructor
  · rintro _ (hn | ⟨hn, ho⟩)
    · simp [resolveCommentTarget, pickLine, hn]
    · simp [resolveCommentTarget, pickLine, hn, ho]
  · intro hhead hk
    obtain ⟨raw, rest, _, rfl⟩ := parseFrom_head (splitLines patch) 0 (0, 0) hhead
    rcases mkRow_shape (0, 0) 0 raw with h | h | h | h <;> rw [h] <;> rw [h] at hk <;>
      simp [resolveCommentTarget, pickLine] at hk ⊢

/-- C10 witness: the first row of the headerless patch `"+hello"` is an
addition numbered new=0; it resolves to line 0 yet the click emits
nothing. -/
theorem zero_numbered_rows_ignored_witness :
    resolveCommentTarget
      { idx := 0, kind := .add, oldN := none, newN := some 0, text := "hello" } =
        some 0 ∧
    pickLine
      { idx := 0, kind := .add, oldN := none, newN := some 0, text := "hello" } =
        none :=
  (zero_numbered_rows_ignored "+hello"
      { idx := 0, kind := .add, oldN := none, newN := some 0, text := "hello" }
      (by decide)).1
    (by decide) (Or.inl rfl)

end Onboard
